import Mathlib

/-!
Shallow embedding of the transaction-ledger and statement-pagination core of the
`mail` repository (`models.py`, `app.py`, `statement_generator/generate_statement.py`).

Modelling conventions:
* currency amounts are `ℚ` (exact arithmetic in place of Python floats);
* timestamps are `Int` seconds; `INTERVAL 'd days'` is `d * 86400` seconds;
* a database state is the pair of the `transfers` and `deposits` tables,
  each a list of rows in insertion order (`SERIAL` ids are modelled as
  row-count + 1, which is faithful because the ledger is append-only);
* `ORDER BY ... DESC` in SQL and Python's stable `sort(reverse=True)` are both
  modelled by the stable `List.mergeSort` with a `≥`-comparison on the sort key;
* a Python function that raises no exception is embedded as a total function;
  fallible operations return `Except`.
-/

namespace Mail

/-- Row of the `transfers` table (`models.py`, `init_db`): a transfer is created
`pending` with `completed_at` NULL and is stamped when marked completed. -/
structure Transfer where
  id : Nat
  from_account : String
  to_email : String
  to_name : String
  amount : ℚ
  date : String
  message : Option String
  reference_number : Option String
  status : String
  created_at : Int
  completed_at : Option Int
  deriving DecidableEq, Repr

/-- Row of the `deposits` table (`models.py`, `init_db`). -/
structure Deposit where
  id : Nat
  from_account : String
  amount : ℚ
  created_at : Int
  deriving DecidableEq, Repr

/-- The database state the ledger operations read and write: the two
transaction tables, each in insertion order. -/
structure State where
  transfers : List Transfer
  deposits : List Deposit
  deriving DecidableEq, Repr

/-- The empty database. -/
def emptyState : State := { transfers := [], deposits := [] }

/-- The seed constant `5299.34` that balance computation starts from
(`models.py`, `get_balance`; `app.py`, `index`). -/
def starting_balance : ℚ := 5299.34

/-- The transfers counted toward the balance: `WHERE status = 'completed'`. -/
def completedTransfers (s : State) : List Transfer :=
  s.transfers.filter (fun t => t.status = "completed")

/-- `Database.get_balance` (models.py 214-244): starting balance, minus the sum
of all completed transfer amounts, plus the sum of all deposit amounts. -/
def get_balance (s : State) : ℚ :=
  let total_outgoing := ((completedTransfers s).map Transfer.amount).sum
  let total_deposits := (s.deposits.map Deposit.amount).sum
  starting_balance - total_outgoing + total_deposits

/-- The ordering timestamp of a transfer:
`CASE WHEN completed_at IS NOT NULL THEN completed_at ELSE created_at END`. -/
def orderingTimestamp (t : Transfer) : Int :=
  t.completed_at.getD t.created_at

/-- The `WHERE` clause of `get_transfers`: completed, and inside the window
`completed_at >= cutoff OR (completed_at IS NULL AND created_at >= cutoff)`. -/
def transferSelected (cutoff : Int) (t : Transfer) : Bool :=
  t.status == "completed" &&
    (match t.completed_at with
     | some c => cutoff ≤ c
     | none => cutoff ≤ t.created_at)

/-- `Database.get_transfers` (models.py 195-212): completed transfers of the
last `days` days, ordered by ordering timestamp descending, first `limit`. -/
def get_transfers (limit days : Nat) (now : Int) (s : State) : List Transfer :=
  let cutoff : Int := now - (days : Int) * 86400
  ((s.transfers.filter (transferSelected cutoff)).mergeSort
    (fun a b => orderingTimestamp b ≤ orderingTimestamp a)).take limit

/-- `Database.get_deposits` (models.py 268-281): deposits of the last `days`
days, ordered by `created_at` descending, first `limit`. -/
def get_deposits (limit days : Nat) (now : Int) (s : State) : List Deposit :=
  let cutoff : Int := now - (days : Int) * 86400
  ((s.deposits.filter (fun d => cutoff ≤ d.created_at)).mergeSort
    (fun a b => b.created_at ≤ a.created_at)).take limit

/-- The fields of a dashboard transaction dict (`app.py`, `index`) that the
running-balance logic reads: kind tag, ordering timestamp, signed display
amount (negative for outgoing transfers) and the positivity flag. -/
structure Txn where
  type : String
  date : Int
  amount : ℚ
  is_positive : Bool
  deriving DecidableEq, Repr

/-- Dashboard dict built from a transfer (app.py 62-71):
`amount` is negated (outgoing), `date` is `completed_at or created_at`. -/
def txnOfTransfer (t : Transfer) : Txn :=
  { type := "transfer", date := orderingTimestamp t, amount := -t.amount, is_positive := false }

/-- Dashboard dict built from a deposit (app.py 83-92). -/
def txnOfDeposit (d : Deposit) : Txn :=
  { type := "deposit", date := d.created_at, amount := d.amount, is_positive := true }

/-- The merged dashboard list (app.py 60-95): formatted transfers followed by
formatted deposits, then `sort(key=date, reverse=True)` (stable descending).
`index` calls this with `limit = 100`, `days = 30`. -/
def all_transactions (limit days : Nat) (now : Int) (s : State) : List Txn :=
  (((get_transfers limit days now s).map txnOfTransfer) ++
    ((get_deposits limit days now s).map txnOfDeposit)).mergeSort
    (fun a b => b.date ≤ a.date)

/-- `sum(abs(t['amount']) for t in all_transactions if not t['is_positive'])`
(app.py 103). -/
def total_outgoing (l : List Txn) : ℚ :=
  ((l.filter (fun t => t.is_positive = false)).map (fun t => |t.amount|)).sum

/-- `sum(t['amount'] for t in all_transactions if t['is_positive'])`
(app.py 104). -/
def total_deposits (l : List Txn) : ℚ :=
  ((l.filter (fun t => t.is_positive = true)).map Txn.amount).sum

/-- The start of the backward walk (app.py 98-105): window-local current
balance, recomputed from the merged list itself. -/
def initial_running_balance (l : List Txn) : ℚ :=
  starting_balance - total_outgoing l + total_deposits l

/-- The loop body of app.py 109-116: adjust the running balance (add back a
transfer's amount, subtract a deposit's amount), THEN record the adjusted
value as the entry's `balance_after`, and continue with it. -/
def annotate : ℚ → List Txn → List (Txn × ℚ)
  | _, [] => []
  | rb, t :: ts =>
    let rb2 := if t.type = "transfer" then rb + |t.amount|
      else if t.type = "deposit" then rb - t.amount else rb
    (t, rb2) :: annotate rb2 ts

/-- `formatted_transactions` of `index` (app.py 97-116): every merged entry
paired with the `balance_after` the backward walk assigns to it. -/
def formatted_transactions (limit days : Nat) (now : Int) (s : State) : List (Txn × ℚ) :=
  annotate (initial_running_balance (all_transactions limit days now s))
    (all_transactions limit days now s)

/-- Statement page object built by `paginate_transactions`
(generate_statement.py 44-81). -/
structure Page (α : Type) where
  page_num : Nat
  is_first_page : Bool
  transactions : List α
  deriving DecidableEq, Repr

/-- The `while remaining:` loop of `paginate_transactions` (lines 71-79),
embedded with fuel bounding the number of iterations.  Each iteration slices
off up to `otherCap` items, so `remaining.length` iterations always suffice
when `otherCap ≥ 1`; with `otherCap = 0` the Python loop does not terminate,
and the fuel-exhaustion branch is never reached under the capacities the
claims quantify over. -/
def pagesLoop (otherCap : Nat) : Nat → Nat → List α → List (Page α)
  | _, _, [] => []
  | 0, _, _ :: _ => []
  | fuel + 1, page_num, x :: xs =>
    { page_num := page_num, is_first_page := false,
      transactions := (x :: xs).take otherCap } ::
      pagesLoop otherCap fuel (page_num + 1) ((x :: xs).drop otherCap)

/-- `paginate_transactions` with the two module constants
`TRANSACTIONS_FIRST_PAGE` and `TRANSACTIONS_OTHER_PAGES` abstracted as
parameters, so capacity-generic properties can be stated; the source body is
otherwise followed line by line (empty input yields the single empty first
page; otherwise the first page takes `firstCap` items and the while-loop
chunks the remainder by `otherCap`). -/
def paginate_transactions_with (firstCap otherCap : Nat) (transactions : List α) :
    List (Page α) :=
  match transactions with
  | [] => [{ page_num := 1, is_first_page := true, transactions := [] }]
  | x :: xs =>
    { page_num := 1, is_first_page := true, transactions := (x :: xs).take firstCap } ::
      pagesLoop otherCap ((x :: xs).drop firstCap).length 2 ((x :: xs).drop firstCap)

/-- `TRANSACTIONS_FIRST_PAGE = 7` (generate_statement.py 27). -/
def TRANSACTIONS_FIRST_PAGE : Nat := 7

/-- `TRANSACTIONS_OTHER_PAGES = 12` (generate_statement.py 28). -/
def TRANSACTIONS_OTHER_PAGES : Nat := 12

/-- `paginate_transactions` as the source runs it, with the module constants. -/
def paginate_transactions (transactions : List α) : List (Page α) :=
  paginate_transactions_with TRANSACTIONS_FIRST_PAGE TRANSACTIONS_OTHER_PAGES transactions

/-- Errors surfaced by storage writes: the UNIQUE constraint on
`transfers.reference_number` aborts an INSERT with an IntegrityError. -/
inductive DBError
  | integrityError
  deriving DecidableEq, Repr

/-- Errors returned by the HTTP layer: `add_money_api` answers 400 when the
amount is not positive. -/
inductive ApiError
  | badRequest
  deriving DecidableEq, Repr

/-- Next `SERIAL` id of the transfers table (row count + 1; append-only). -/
def next_transfer_id (s : State) : Nat := s.transfers.length + 1

/-- Next `SERIAL` id of the deposits table. -/
def next_deposit_id (s : State) : Nat := s.deposits.length + 1

/-- Whether a non-null reference number is already present among transfers
(the UNIQUE constraint's view of the table). -/
def refTaken (s : State) (r : String) : Bool :=
  s.transfers.any (fun t => t.reference_number == some r)

/-- Whether an INSERT carrying this optional reference number violates the
UNIQUE constraint (NULLs never collide). -/
def refViolation (s : State) (reference_number : Option String) : Bool :=
  match reference_number with
  | some r => refTaken s r
  | none => false

/-- `Database.create_transfer` (models.py 147-163): INSERT a new row with
status `'pending'`, `created_at` the current instant and `completed_at` NULL.
The function itself validates nothing; the only failure is the UNIQUE
constraint on a non-null duplicate `reference_number`, in which case nothing
is committed. -/
def create_transfer (s : State) (from_account to_email to_name : String) (amount : ℚ)
    (date : String) (message : Option String) (reference_number : Option String)
    (now : Int) : Except DBError (State × Nat) :=
  if refViolation s reference_number then .error .integrityError
  else
    let tid := next_transfer_id s
    .ok ({ s with transfers := s.transfers ++
      [{ id := tid, from_account := from_account, to_email := to_email,
         to_name := to_name, amount := amount, date := date, message := message,
         reference_number := reference_number, status := "pending",
         created_at := now, completed_at := none }] }, tid)

/-- `Database.update_transfer_status` (models.py 175-193): UPDATE every row
whose id matches (zero rows when the id is unknown — no error is raised);
when the new status is `'completed'` also stamp `completed_at` with the
current instant. -/
def update_transfer_status (s : State) (transfer_id : Nat) (status : String)
    (now : Int) : State :=
  if status = "completed" then
    { s with transfers := s.transfers.map (fun t =>
        if t.id = transfer_id then { t with status := status, completed_at := some now }
        else t) }
  else
    { s with transfers := s.transfers.map (fun t =>
        if t.id = transfer_id then { t with status := status } else t) }

/-- `Database.add_deposit` (models.py 252-266): INSERT a deposit row. -/
def add_deposit (s : State) (amount : ℚ) (from_account : String) (now : Int) :
    State × Nat :=
  let did := next_deposit_id s
  ({ s with deposits := s.deposits ++
    [{ id := did, from_account := from_account, amount := amount, created_at := now }] },
   did)

/-- `Database.update_balance` (models.py 246-250): the body is `pass` — the
balance is derived, so the method deliberately changes nothing. -/
def update_balance (amount : ℚ) (account_number : String) (s : State) : State := s

/-- `add_money_api` (app.py 295-315): reject a non-positive amount with a 400
response before touching storage, otherwise record the deposit (source
account defaults to `'*** 3321'`). -/
def add_money_api (s : State) (amount : ℚ) (now : Int) : Except ApiError (State × Nat) :=
  if amount ≤ 0 then .error .badRequest
  else .ok (add_deposit s amount "*** 3321" now)

/-- The state-relevant steps of the `create_transfer` route (app.py 198-247):
insert the transfer as pending, mark it completed, then call
`update_balance` with the transfer amount. -/
def api_create_transfer (s : State) (to_email to_name : String) (amount : ℚ)
    (date message reference_number : String) (now : Int) :
    Except DBError (State × Nat) :=
  match create_transfer s "Chequing *** 3982" to_email to_name amount date
      (some message) (some reference_number) now with
  | .error e => .error e
  | .ok (s1, tid) =>
    let s2 := update_transfer_status s1 tid "completed" now
    let s3 := update_balance amount "*** 3982" s2
    .ok (s3, tid)

/-- The adjustment the backward walk adds to the running balance at one entry:
`+|amount|` for a transfer row, `-amount` for a deposit row (app.py 110-113). -/
def adj (t : Txn) : ℚ :=
  if t.type = "transfer" then |t.amount| else if t.type = "deposit" then -t.amount else 0

/-- Well-formedness of a dashboard dict: it was built either from a transfer
row or from a deposit row, so its kind tag and positivity flag agree. -/
def wf (t : Txn) : Prop :=
  (t.type = "transfer" ∧ t.is_positive = false) ∨
    (t.type = "deposit" ∧ t.is_positive = true)

/-- The completed-transfer amount total of a transfers table. -/
def completedAmountSum (l : List Transfer) : ℚ :=
  ((l.filter (fun t => t.status = "completed")).map Transfer.amount).sum

/-! ## Concrete fixtures used by counterexamples and witnesses -/

/-- A deposit of 100 made at time 1000000. -/
def dep100 : Deposit :=
  { id := 1, from_account := "*** 3321", amount := 100, created_at := 1000000 }

/-- A deposit of 50 made at time 5000000. -/
def dep50 : Deposit :=
  { id := 1, from_account := "*** 3321", amount := 50, created_at := 5000000 }

/-- A deposit of 30 made at time 999000. -/
def dep30 : Deposit :=
  { id := 2, from_account := "*** 3321", amount := 30, created_at := 999000 }

/-- A completed transfer of 100 settled at time 0 (far outside a 30-day window
ending anywhere past time 2592000). -/
def tOld100 : Transfer :=
  { id := 1, from_account := "Chequing *** 3982", to_email := "a@example.com",
    to_name := "Alice", amount := 100, date := "2024-01-01", message := none,
    reference_number := some "REFOLD000001", status := "completed",
    created_at := 0, completed_at := some 0 }

/-- A completed transfer of 40 settled at time 950000. -/
def tNew40 : Transfer :=
  { id := 2, from_account := "Chequing *** 3982", to_email := "b@example.com",
    to_name := "Bob", amount := 40, date := "2024-02-01", message := none,
    reference_number := some "REFNEW000001", status := "completed",
    created_at := 900000, completed_at := some 950000 }

/-- A completed transfer of 75 settled at time 10 (already settled once). -/
def tDone75 : Transfer :=
  { id := 1, from_account := "Chequing *** 3982", to_email := "c@example.com",
    to_name := "Carol", amount := 75, date := "2024-03-01", message := none,
    reference_number := some "REFDONE00001", status := "completed",
    created_at := 5, completed_at := some 10 }

/-- A pending transfer of 60, not yet settled. -/
def tPend60 : Transfer :=
  { id := 1, from_account := "Chequing *** 3982", to_email := "d@example.com",
    to_name := "Dave", amount := 60, date := "2024-04-01", message := none,
    reference_number := some "REFPEND00001", status := "pending",
    created_at := 20, completed_at := none }

/-- History holding only `dep100`. -/
def sDep : State := { transfers := [], deposits := [dep100] }

/-- History holding the out-of-window `tOld100` and the in-window `dep50`. -/
def sMixed : State := { transfers := [tOld100], deposits := [dep50] }

/-- History holding the in-window `tNew40` and the in-window `dep100`. -/
def sBoth : State := { transfers := [tNew40], deposits := [dep100] }

/-- History whose deposits were inserted chronologically (oldest first), the
order an append-only run of the application produces: `dep30` (time 999000)
before `dep100` (time 1000000), plus the settled transfer `tNew40`. -/
def sChrono : State := { transfers := [tNew40], deposits := [dep30, dep100] }

/-- History holding only the already-completed `tDone75`. -/
def sDone : State := { transfers := [tDone75], deposits := [] }

/-- History holding only the pending `tPend60`. -/
def sPend : State := { transfers := [tPend60], deposits := [] }

/-- Two transfers and two deposits in one insertion order. -/
def sPermA : State := { transfers := [tNew40, tOld100], deposits := [dep100, dep50] }

/-- The same rows as `sPermA` in the opposite insertion order. -/
def sPermB : State := { transfers := [tOld100, tNew40], deposits := [dep50, dep100] }

end Mail

namespace Mail

/-! ## Paginator lemmas -/

theorem pagesLoop_flatten {α : Type} (o : Nat) (ho : 1 ≤ o) :
    ∀ (fuel page_num : Nat) (rem : List α), rem.length ≤ fuel →
      ((pagesLoop o fuel page_num rem).map Page.transactions).flatten = rem := by
  intro fuel
  induction fuel with
  | zero =>
    intro page_num rem h
    cases rem with
    | nil => simp [pagesLoop]
    | cons x xs => simp at h
  | succ n ih =>
    intro page_num rem h
    cases rem with
    | nil => simp [pagesLoop]
    | cons x xs =>
      simp only [pagesLoop, List.map_cons, List.flatten_cons]
      rw [ih (page_num + 1) ((x :: xs).drop o) ?_]
      · exact List.take_append_drop o (x :: xs)
      · rw [List.length_drop]
        simp only [List.length_cons] at h ⊢
        omega

/-- C3: pagination is a lossless partition — for every input sequence and
capacities at least 1, concatenating the transactions of all returned pages
in page order reproduces the input exactly. -/
theorem claim_C3 {α : Type} (T : List α) (f o : Nat) (hf : 1 ≤ f) (ho : 1 ≤ o) :
    ((paginate_transactions_with f o T).map Page.transactions).flatten = T := by
  cases T with
  | nil => simp [paginate_transactions_with]
  | cons x xs =>
    simp only [paginate_transactions_with, List.map_cons, List.flatten_cons]
    rw [pagesLoop_flatten o ho _ 2 ((x :: xs).drop f) le_rfl]
    exact List.take_append_drop f (x :: xs)

/-- Witness for C3 at a concrete input: capacities 1 and 1, input `[10, 20, 30]`. -/
theorem claim_C3_witness :
    (1 ≤ 1 ∧ 1 ≤ 1) ∧
      ((paginate_transactions_with 1 1 [10, 20, 30]).map
        Page.transactions).flatten = [10, 20, 30] :=
  ⟨⟨le_rfl, le_rfl⟩, claim_C3 [10, 20, 30] 1 1 le_rfl le_rfl⟩

/-- C7: pagination boundary behaviour with the source's capacities 7 and 12 —
the empty input yields exactly the single empty first page; 7 items fill one
page with no empty second page; 8 items yield a 7-item first page and a
1-item second page. -/
theorem claim_C7 :
    paginate_transactions ([] : List Nat) =
      [{ page_num := 1, is_first_page := true, transactions := [] }] ∧
    paginate_transactions [1, 2, 3, 4, 5, 6, 7] =
      [{ page_num := 1, is_first_page := true, transactions := [1, 2, 3, 4, 5, 6, 7] }] ∧
    paginate_transactions [1, 2, 3, 4, 5, 6, 7, 8] =
      [{ page_num := 1, is_first_page := true, transactions := [1, 2, 3, 4, 5, 6, 7] },
       { page_num := 2, is_first_page := false, transactions := [8] }] :=
  ⟨rfl, rfl, rfl⟩

/-! ## Running-balance walk lemmas -/

theorem annotate_cons (rb : ℚ) (t : Txn) (ts : List Txn) :
    annotate rb (t :: ts) = (t, rb + adj t) :: annotate (rb + adj t) ts := by
  have h : (if t.type = "transfer" then rb + |t.amount|
      else if t.type = "deposit" then rb - t.amount else rb) = rb + adj t := by
    unfold adj
    split_ifs <;> ring
  simp only [annotate]
  rw [h]

theorem annotate_snd_getLast :
    ∀ (ts : List Txn) (rb : ℚ), ts ≠ [] →
      ((annotate rb ts).map Prod.snd).getLast? = some (rb + (ts.map adj).sum)
  | [], _, h => absurd rfl h
  | [t], rb, _ => by
    rw [annotate_cons]
    simp [annotate]
  | t :: u :: us, rb, _ => by
    have ih := annotate_snd_getLast (u :: us) (rb + adj t) (by simp)
    rw [annotate_cons] at ih
    simp only [List.map_cons] at ih
    rw [annotate_cons, annotate_cons]
    simp only [List.map_cons, List.getLast?_cons_cons]
    rw [ih]
    simp only [List.sum_cons]
    exact congrArg some (by ring)

theorem mem_all_transactions_wf (limit days : Nat) (now : Int) (s : State) :
    ∀ t ∈ all_transactions limit days now s, wf t := by
  intro t ht
  unfold all_transactions at ht
  rw [List.mem_mergeSort] at ht
  rcases List.mem_append.mp ht with h | h <;> rcases List.mem_map.mp h with ⟨x, _, rfl⟩
  · exact Or.inl (by simp [txnOfTransfer])
  · exact Or.inr (by simp [txnOfDeposit])

theorem sum_adj_of_wf :
    ∀ l : List Txn, (∀ t ∈ l, wf t) →
      (l.map adj).sum = total_outgoing l - total_deposits l := by
  intro l
  induction l with
  | nil => simp [total_outgoing, total_deposits]
  | cons t ts ih =>
    intro h
    have ht := h t (by simp)
    have hts : ∀ u ∈ ts, wf u := fun u hu => h u (by simp [hu])
    rcases ht with ⟨h1, h2⟩ | ⟨h1, h2⟩ <;>
      simp [total_outgoing, total_deposits, adj, h1, h2, List.filter_cons,
        List.sum_cons, ih hts] <;> ring

theorem total_outgoing_perm {l1 l2 : List Txn} (h : l1.Perm l2) :
    total_outgoing l1 = total_outgoing l2 :=
  ((h.filter _).map _).sum_eq

theorem total_deposits_perm {l1 l2 : List Txn} (h : l1.Perm l2) :
    total_deposits l1 = total_deposits l2 :=
  ((h.filter _).map _).sum_eq

theorem amountSum_perm {l1 l2 : List Txn} (h : l1.Perm l2) :
    (l1.map Txn.amount).sum = (l2.map Txn.amount).sum :=
  (h.map _).sum_eq

theorem all_transactions_perm (limit days : Nat) (now : Int) (s : State) :
    (all_transactions limit days now s).Perm
      (((get_transfers limit days now s).map txnOfTransfer) ++
        ((get_deposits limit days now s).map txnOfDeposit)) :=
  List.mergeSort_perm _ _

/-- C10: telescoping anchor of the backward walk — whenever the merged
windowed list is non-empty, the `balance_after` assigned to its final
(oldest) entry is exactly the opening-balance constant 5299.34, for every
window, limit, reference time and stored history. -/
theorem claim_C10 (limit days : Nat) (now : Int) (s : State)
    (h : all_transactions limit days now s ≠ []) :
    ((formatted_transactions limit days now s).map Prod.snd).getLast? =
      some starting_balance := by
  unfold formatted_transactions
  rw [annotate_snd_getLast _ _ h]
  rw [sum_adj_of_wf _ (mem_all_transactions_wf limit days now s)]
  unfold initial_running_balance
  exact congrArg some (by ring)

/-- Witness for C10: the history holding the single deposit `dep100`, read at
time 1000000 with the dashboard's window of 30 days and limit 100. -/
theorem claim_C10_witness :
    all_transactions 100 30 1000000 sDep ≠ [] ∧
      ((formatted_transactions 100 30 1000000 sDep).map Prod.snd).getLast? =
        some starting_balance := by
  have h : all_transactions 100 30 1000000 sDep ≠ [] := by
    simp [all_transactions, get_transfers, get_deposits, sDep, dep100, List.mergeSort]
  exact ⟨h, claim_C10 100 30 1000000 sDep h⟩

/-- C2: evaluation of the walk at the failing input — the history holding the
single in-window deposit `dep100`.  The running value held before adjusting
for the only entry is 5399.34, but the code adjusts first and assigns the
post-adjustment value 5299.34 as that entry's `balance_after`, contradicting
the claimed (and self-documented) assignment direction. -/
theorem claim_C2_code_eval :
    initial_running_balance (all_transactions 100 30 1000000 sDep) = 5399.34 ∧
    formatted_transactions 100 30 1000000 sDep =
      [({ type := "deposit", date := 1000000, amount := 100, is_positive := true },
        (5299.34 : ℚ))] ∧
    (5299.34 : ℚ) ≠ 5399.34 := by
  refine ⟨?_, ?_, by norm_num⟩ <;>
    · simp [initial_running_balance, total_outgoing, total_deposits,
        formatted_transactions, annotate, all_transactions, get_transfers,
        get_deposits, sDep, dep100, txnOfDeposit, List.mergeSort,
        starting_balance]
      try norm_num

/-! ## Sums of the merged list by kind -/

theorem total_outgoing_append (l1 l2 : List Txn) :
    total_outgoing (l1 ++ l2) = total_outgoing l1 + total_outgoing l2 := by
  simp [total_outgoing, List.filter_append]

theorem total_deposits_append (l1 l2 : List Txn) :
    total_deposits (l1 ++ l2) = total_deposits l1 + total_deposits l2 := by
  simp [total_deposits, List.filter_append]

theorem total_outgoing_map_txnOfDeposit (l : List Deposit) :
    total_outgoing (l.map txnOfDeposit) = 0 := by
  induction l with
  | nil => simp [total_outgoing]
  | cons d ds ih => simp [total_outgoing, txnOfDeposit, List.filter_cons] at ih ⊢; exact ih

theorem total_deposits_map_txnOfDeposit (l : List Deposit) :
    total_deposits (l.map txnOfDeposit) = (l.map Deposit.amount).sum := by
  induction l with
  | nil => simp [total_deposits]
  | cons d ds ih =>
    simp [total_deposits, txnOfDeposit, List.filter_cons] at ih ⊢
    simp [ih]

theorem total_deposits_map_txnOfTransfer (l : List Transfer) :
    total_deposits (l.map txnOfTransfer) = 0 := by
  induction l with
  | nil => simp [total_deposits]
  | cons t ts ih => simp [total_deposits, txnOfTransfer, List.filter_cons] at ih ⊢; exact ih

theorem total_outgoing_map_txnOfTransfer (l : List Transfer)
    (h : ∀ t ∈ l, 0 ≤ t.amount) :
    total_outgoing (l.map txnOfTransfer) = (l.map Transfer.amount).sum := by
  induction l with
  | nil => simp [total_outgoing]
  | cons t ts ih =>
    have h1 : |(-(t.amount))| = t.amount := by
      rw [abs_neg, abs_of_nonneg (h t (by simp))]
    have h0 : 0 ≤ t.amount := h t (by simp)
    have ih2 := ih (fun u hu => h u (by simp [hu]))
    simp [total_outgoing, txnOfTransfer, List.filter_cons] at ih2 ⊢
    simp [ih2, h1, h0]

theorem amountSum_map_txnOfTransfer (l : List Transfer) :
    ((l.map txnOfTransfer).map Txn.amount).sum = -((l.map Transfer.amount).sum) := by
  induction l with
  | nil => simp
  | cons t ts ih =>
    simp only [List.map_cons, List.sum_cons]
    rw [ih]
    simp [txnOfTransfer]
    ring

theorem amountSum_map_txnOfDeposit (l : List Deposit) :
    ((l.map txnOfDeposit).map Txn.amount).sum = (l.map Deposit.amount).sum := by
  induction l with
  | nil => simp
  | cons d ds ih =>
    simp only [List.map_cons, List.sum_cons]
    rw [ih]
    simp [txnOfDeposit]

/-- When the query window and limits select, up to order, every settled
transfer and every deposit, the window-local starting value of the walk
coincides with `get_balance` (granted the storage invariant that amounts are
non-negative, since the walk totals use `abs`).  The hypotheses are
permutations, not equalities: the queries return rows sorted by timestamp
descending while the tables hold them in insertion order. -/
theorem initial_running_balance_eq_get_balance (limit days : Nat) (now : Int) (s : State)
    (hw : (get_transfers limit days now s).Perm
      (s.transfers.filter (fun t => t.status = "completed")))
    (hd : (get_deposits limit days now s).Perm s.deposits)
    (hpos : ∀ t ∈ s.transfers, 0 ≤ t.amount) :
    initial_running_balance (all_transactions limit days now s) = get_balance s := by
  have hperm : (all_transactions limit days now s).Perm
      (((s.transfers.filter (fun t => t.status = "completed")).map txnOfTransfer) ++
        (s.deposits.map txnOfDeposit)) :=
    (all_transactions_perm limit days now s).trans
      ((hw.map txnOfTransfer).append (hd.map txnOfDeposit))
  unfold initial_running_balance
  rw [total_outgoing_perm hperm, total_deposits_perm hperm]
  rw [total_outgoing_append, total_deposits_append,
    total_outgoing_map_txnOfTransfer _ (fun t ht => hpos t (List.mem_of_mem_filter ht)),
    total_outgoing_map_txnOfDeposit, total_deposits_map_txnOfTransfer,
    total_deposits_map_txnOfDeposit]
  simp [get_balance, completedTransfers]

/-- Under the same up-to-order window hypotheses, the signed display amounts
of the merged list total the net effect recorded in the ledger. -/
theorem amountSum_all_transactions (limit days : Nat) (now : Int) (s : State)
    (hw : (get_transfers limit days now s).Perm
      (s.transfers.filter (fun t => t.status = "completed")))
    (hd : (get_deposits limit days now s).Perm s.deposits) :
    ((all_transactions limit days now s).map Txn.amount).sum =
      -(completedAmountSum s.transfers) + (s.deposits.map Deposit.amount).sum := by
  have hperm : (all_transactions limit days now s).Perm
      (((s.transfers.filter (fun t => t.status = "completed")).map txnOfTransfer) ++
        (s.deposits.map txnOfDeposit)) :=
    (all_transactions_perm limit days now s).trans
      ((hw.map txnOfTransfer).append (hd.map txnOfDeposit))
  rw [amountSum_perm hperm]
  rw [List.map_append, List.sum_append,
    amountSum_map_txnOfTransfer, amountSum_map_txnOfDeposit]
  simp [completedAmountSum]

/-- C1 (amended): for every non-empty history whose settled transfers and
deposits are all selected by the window and limits — stated up to order, as
permutations between the sorted query output and the stored tables — and
whose stored amounts are non-negative, the first entry of the reconstruction
carries a `balance_after` equal to `get_balance` adjusted by that entry's own
amount in the direction opposite to how it was applied, and re-applying every
annotated entry's signed effect forward from the oldest entry's
`balance_after` reproduces `get_balance` exactly. -/
theorem claim_C1 (limit days : Nat) (now : Int) (s : State)
    (hw : (get_transfers limit days now s).Perm
      (s.transfers.filter (fun t => t.status = "completed")))
    (hd : (get_deposits limit days now s).Perm s.deposits)
    (hpos : ∀ t ∈ s.transfers, 0 ≤ t.amount)
    (hne : all_transactions limit days now s ≠ []) :
    (∀ t b rest, formatted_transactions limit days now s = (t, b) :: rest →
        b = get_balance s + adj t) ∧
    (∀ q, ((formatted_transactions limit days now s).map Prod.snd).getLast? = some q →
        q + ((all_transactions limit days now s).map Txn.amount).sum = get_balance s) := by
  have hrb := initial_running_balance_eq_get_balance limit days now s hw hd hpos
  constructor
  · intro t b rest heq
    unfold formatted_transactions at heq
    rcases hl : all_transactions limit days now s with _ | ⟨t0, ts⟩
    · exact absurd hl hne
    · rw [hl] at heq hrb
      rw [annotate_cons] at heq
      injection heq with h1 h2
      cases h1
      rw [hrb]
  · intro q hq
    unfold formatted_transactions at hq
    rw [annotate_snd_getLast _ _ hne, Option.some.injEq] at hq
    subst hq
    rw [sum_adj_of_wf _ (mem_all_transactions_wf limit days now s),
      amountSum_all_transactions limit days now s hw hd]
    unfold initial_running_balance
    simp [get_balance, completedTransfers, completedAmountSum]
    ring

/-- C1 counterexample: with the settled transfer `tOld100` outside the 30-day
window and the deposit `dep50` inside it, the window-local walk starts from a
value that differs from `get_balance`, so the claimed first-entry equation
fails on the dashboard's own parameters (limit 100, 30 days). -/
theorem claim_C1_counterexample :
    ¬ (∀ t b rest, formatted_transactions 100 30 5000000 sMixed = (t, b) :: rest →
        b = get_balance sMixed + adj t) := by
  intro hcl
  have heval : formatted_transactions 100 30 5000000 sMixed =
      [({ type := "deposit", date := 5000000, amount := 50, is_positive := true },
        (5299.34 : ℚ))] := by
    simp [formatted_transactions, annotate, all_transactions, get_transfers,
      get_deposits, sMixed, tOld100, dep50, txnOfDeposit, txnOfTransfer,
      transferSelected, initial_running_balance, total_outgoing, total_deposits,
      starting_balance, List.mergeSort]
    try norm_num
  have hbad := hcl _ _ _ heval
  rw [get_balance] at hbad
  simp [adj] at hbad
  norm_num [completedTransfers, sMixed, tOld100, dep50, starting_balance] at hbad

/-- Witness for C1: the history `sChrono`, whose two deposits were inserted
chronologically (oldest first) so the sorted query output is a genuine
reordering of the stored table, and whose transfer and deposits all fall
inside the 30-day window at time 1000000. -/
theorem claim_C1_witness :
    ((get_transfers 100 30 1000000 sChrono).Perm
        (sChrono.transfers.filter (fun t => t.status = "completed")) ∧
      (get_deposits 100 30 1000000 sChrono).Perm sChrono.deposits ∧
      (∀ t ∈ sChrono.transfers, 0 ≤ t.amount) ∧
      all_transactions 100 30 1000000 sChrono ≠ []) ∧
    (∀ t b rest, formatted_transactions 100 30 1000000 sChrono = (t, b) :: rest →
        b = get_balance sChrono + adj t) ∧
    (∀ q, ((formatted_transactions 100 30 1000000 sChrono).map Prod.snd).getLast? = some q →
        q + ((all_transactions 100 30 1000000 sChrono).map Txn.amount).sum =
          get_balance sChrono) := by
  have hw : (get_transfers 100 30 1000000 sChrono).Perm
      (sChrono.transfers.filter (fun t => t.status = "completed")) := by
    have h1 : get_transfers 100 30 1000000 sChrono = [tNew40] := by
      simp [get_transfers, sChrono, tNew40, transferSelected, List.mergeSort,
        orderingTimestamp]
    have h2 : sChrono.transfers.filter (fun t => t.status = "completed") = [tNew40] := by
      simp [sChrono, tNew40]
    rw [h1, h2]
  have hd : (get_deposits 100 30 1000000 sChrono).Perm sChrono.deposits := by
    have h1 : get_deposits 100 30 1000000 sChrono = [dep100, dep30] := by
      simp [get_deposits, sChrono, dep100, dep30, List.mergeSort, List.merge]
    rw [h1]
    exact List.Perm.swap dep30 dep100 []
  have hpos : ∀ t ∈ sChrono.transfers, 0 ≤ t.amount := by
    intro t ht
    simp [sChrono] at ht
    subst ht
    simp [tNew40]
  have hne : all_transactions 100 30 1000000 sChrono ≠ [] := by
    simp [all_transactions, get_transfers, get_deposits, sChrono, tNew40, dep100,
      dep30, transferSelected, List.mergeSort, List.merge, txnOfTransfer,
      txnOfDeposit, orderingTimestamp]
  exact ⟨⟨hw, hd, hpos, hne⟩, claim_C1 100 30 1000000 sChrono hw hd hpos hne⟩

/-! ## Ordering and truncation -/

theorem pairwise_sort_ge {α : Type} (key : α → Int) (l : List α) :
    (l.mergeSort (fun a b => key b ≤ key a)).Pairwise (fun a b => key b ≤ key a) := by
  have h := @List.sorted_mergeSort _ (fun a b => decide (key b ≤ key a))
    (fun a b c h1 h2 => by simp at h1 h2 ⊢; omega)
    (fun a b => by simpa using Int.le_total (key b) (key a)) l
  exact h.imp (fun hab => by simpa using hab)

/-- C4 (amended): the merged dashboard list is sorted by ordering timestamp
descending (deterministically, since the embedding is a pure function), but
truncation to `limit` happens separately per kind inside the SQL queries,
before the merge: each kind keeps at most `limit` rows and the merged,
sorted sequence is not truncated again, so it can hold up to `2 * limit`
entries. -/
theorem claim_C4 (limit days : Nat) (now : Int) (s : State) :
    (all_transactions limit days now s).Pairwise (fun a b => b.date ≤ a.date) ∧
    (get_transfers limit days now s).Pairwise
      (fun a b => orderingTimestamp b ≤ orderingTimestamp a) ∧
    (get_deposits limit days now s).Pairwise (fun a b => b.created_at ≤ a.created_at) ∧
    (get_transfers limit days now s).length ≤ limit ∧
    (get_deposits limit days now s).length ≤ limit ∧
    (all_transactions limit days now s).length ≤ limit + limit := by
  refine ⟨pairwise_sort_ge Txn.date _, ?_, ?_, ?_, ?_, ?_⟩
  · exact (pairwise_sort_ge orderingTimestamp _).sublist (List.take_sublist _ _)
  · exact (pairwise_sort_ge Deposit.created_at _).sublist (List.take_sublist _ _)
  · simp [get_transfers]
  · simp [get_deposits]
  · have h1 : (get_transfers limit days now s).length ≤ limit := by simp [get_transfers]
    have h2 : (get_deposits limit days now s).length ≤ limit := by simp [get_deposits]
    unfold all_transactions
    rw [List.length_mergeSort, List.length_append, List.length_map, List.length_map]
    omega

/-- C4 counterexample: with per-kind limit 1, one in-window settled transfer
and one in-window deposit, the merged sorted list holds 2 entries — it is not
truncated to the limit after sorting, as the claim states. -/
theorem claim_C4_counterexample :
    ¬ ((all_transactions 1 30 1000000 sBoth).length ≤ 1) := by
  simp [all_transactions, get_transfers, get_deposits, sBoth, tNew40, dep100,
    transferSelected, List.mergeSort, List.merge, txnOfTransfer, txnOfDeposit,
    orderingTimestamp]

/-! ## Ledger write operations -/

theorem get_balance_eq (s : State) :
    get_balance s = starting_balance - completedAmountSum s.transfers +
      (s.deposits.map Deposit.amount).sum := rfl

theorem completedAmountSum_nil : completedAmountSum [] = 0 := rfl

theorem completedAmountSum_cons (u : Transfer) (l : List Transfer) :
    completedAmountSum (u :: l) =
      (if u.status = "completed" then u.amount else 0) + completedAmountSum l := by
  simp only [completedAmountSum, List.filter_cons]
  split_ifs with h <;> simp_all

theorem completedAmountSum_append (l1 l2 : List Transfer) :
    completedAmountSum (l1 ++ l2) = completedAmountSum l1 + completedAmountSum l2 := by
  simp [completedAmountSum, List.filter_append]

theorem map_ite_update_id {f : Transfer → Transfer} :
    ∀ (l : List Transfer) (i : Nat), (∀ t ∈ l, t.id ≠ i) →
      l.map (fun t => if t.id = i then f t else t) = l := by
  intro l i h
  induction l with
  | nil => rfl
  | cons u us ih =>
    have hu : u.id ≠ i := h u (by simp)
    simp [hu, ih (fun v hv => h v (by simp [hv]))]

theorem completedAmountSum_settle :
    ∀ (l : List Transfer) (i : Nat) (now : Int) (t : Transfer),
      l.filter (fun u => u.id = i) = [t] → t.status ≠ "completed" →
      completedAmountSum (l.map (fun u => if u.id = i then
          { u with status := "completed", completed_at := some now } else u)) =
        completedAmountSum l + t.amount := by
  intro l i now
  induction l with
  | nil => intro t hf _; simp at hf
  | cons u us ih =>
    intro t hf hp
    by_cases h : u.id = i
    · obtain ⟨h1, hrest⟩ : u = t ∧ us.filter (fun v => v.id = i) = [] := by
        simpa [List.filter_cons, h] using hf
      subst h1
      have hus : ∀ v ∈ us, v.id ≠ i := by
        intro v hv
        by_contra hvi
        have hmem : v ∈ us.filter (fun v => v.id = i) :=
          List.mem_filter.mpr ⟨hv, by simp [hvi]⟩
        simp [hrest] at hmem
      rw [List.map_cons, map_ite_update_id us i hus, if_pos h,
        completedAmountSum_cons, completedAmountSum_cons]
      simp [hp]
      try ring
    · have hf2 : us.filter (fun v => v.id = i) = [t] := by
        simpa [List.filter_cons, h] using hf
      rw [List.map_cons, if_neg h, completedAmountSum_cons, completedAmountSum_cons,
        ih t hf2 hp]
      ring

theorem completedAmountSum_settle_settle (l : List Transfer) (i : Nat) (n1 n2 : Int) :
    completedAmountSum (l.map ((fun u => if u.id = i then
        { u with status := "completed", completed_at := some n2 } else u) ∘
      (fun u => if u.id = i then
        { u with status := "completed", completed_at := some n1 } else u))) =
      completedAmountSum (l.map (fun u => if u.id = i then
        { u with status := "completed", completed_at := some n1 } else u)) := by
  induction l with
  | nil => rfl
  | cons u us ih =>
    simp only [List.map_cons, completedAmountSum_cons, ih, Function.comp]
    by_cases h : u.id = i <;> simp [h]

/-- C5 (amended): `create_transfer` fails (UNIQUE-constraint IntegrityError)
when the non-null reference number is already present, committing nothing;
it performs no amount validation and appends a pending transfer even when the
amount is non-positive; `add_money_api` rejects a non-positive amount with an
error before any deposit is recorded. -/
theorem claim_C5 (s : State) (fa te tn dt : String) (m : Option String)
    (amount : ℚ) (r : String) (now : Int) :
    (refTaken s r = true →
      create_transfer s fa te tn amount dt m (some r) now = .error .integrityError) ∧
    (amount ≤ 0 →
      create_transfer s fa te tn amount dt m none now =
        .ok ({ s with transfers := s.transfers ++
          [{ id := next_transfer_id s, from_account := fa, to_email := te,
             to_name := tn, amount := amount, date := dt, message := m,
             reference_number := none, status := "pending", created_at := now,
             completed_at := none }] }, next_transfer_id s)) ∧
    (amount ≤ 0 → add_money_api s amount now = .error .badRequest) := by
  refine ⟨?_, ?_, ?_⟩
  · intro h
    simp [create_transfer, refViolation, h]
  · intro _
    simp [create_transfer, refViolation]
  · intro h
    simp [add_money_api, h]

/-- C5 counterexample: on the empty database, `create_transfer` with amount 0
(≤ 0) succeeds and appends the row — it does not fail with a validation
error as the claim states. -/
theorem claim_C5_counterexample :
    (0 : ℚ) ≤ 0 ∧
    create_transfer emptyState "Chequing *** 3982" "e@example.com" "Eve" 0
        "2025-01-01" none (some "REFEVE000001") 100 =
      .ok ({ transfers :=
        [{ id := 1, from_account := "Chequing *** 3982", to_email := "e@example.com",
           to_name := "Eve", amount := 0, date := "2025-01-01", message := none,
           reference_number := some "REFEVE000001", status := "pending",
           created_at := 100, completed_at := none }], deposits := [] }, 1) :=
  ⟨le_rfl, rfl⟩

/-- Witness for C5: the duplicate reference of `tNew40` and the amount 0. -/
theorem claim_C5_witness :
    (refTaken sBoth "REFNEW000001" = true ∧ (0 : ℚ) ≤ 0) ∧
    create_transfer sBoth "Chequing *** 3982" "e@example.com" "Eve" 0 "2025-01-01"
        none (some "REFNEW000001") 100 = .error .integrityError ∧
    add_money_api sBoth 0 100 = .error .badRequest := by
  have h1 : refTaken sBoth "REFNEW000001" = true := rfl
  have h2 : (0 : ℚ) ≤ 0 := le_rfl
  have hC := claim_C5 sBoth "Chequing *** 3982" "e@example.com" "Eve" "2025-01-01"
    none 0 "REFNEW000001" 100
  exact ⟨⟨h1, h2⟩, hC.1 h1, hC.2.2 h2⟩

/-- C6 (amended): settling the unique pending transfer with a given id moves
its amount into the derived balance (balance drops by the amount); settling
an unknown id silently leaves the state unchanged rather than failing; a
second settlement call also returns normally and leaves the balance unchanged
between the two calls. -/
theorem claim_C6 (s : State) (i : Nat) (t : Transfer) (n1 n2 : Int) :
    (s.transfers.filter (fun u => u.id = i) = [t] → t.status = "pending" →
      get_balance (update_transfer_status s i "completed" n1) =
        get_balance s - t.amount) ∧
    ((∀ u ∈ s.transfers, u.id ≠ i) → update_transfer_status s i "completed" n1 = s) ∧
    get_balance (update_transfer_status
        (update_transfer_status s i "completed" n1) i "completed" n2) =
      get_balance (update_transfer_status s i "completed" n1) := by
  refine ⟨?_, ?_, ?_⟩
  · intro hf hp
    have hs := completedAmountSum_settle s.transfers i n1 t hf (by simp [hp])
    simp [update_transfer_status, get_balance_eq, hs]
    ring
  · intro h
    simp [update_transfer_status, map_ite_update_id s.transfers i h]
  · simp [update_transfer_status, get_balance_eq, completedAmountSum_settle_settle]

/-- C6 counterexample: `tDone75` is already completed (stamped at 10); a
second settlement call at time 20 returns normally and merely re-stamps
`completed_at` — it does not fail with an invalid-state error — and an
unknown id (999 on the empty database) returns normally instead of a
not-found error. -/
theorem claim_C6_counterexample :
    update_transfer_status sDone 1 "completed" 20 =
      { transfers := [{ tDone75 with completed_at := some 20 }], deposits := [] } ∧
    update_transfer_status sDone 1 "completed" 20 ≠ sDone ∧
    update_transfer_status emptyState 999 "completed" 20 = emptyState := by
  refine ⟨rfl, ?_, rfl⟩
  intro h
  have h2 := congrArg (fun st => st.transfers.map Transfer.completed_at) h
  simp [update_transfer_status, sDone, tDone75] at h2

/-- Witness for C6: settling the pending `tPend60` (id 1), and the unknown
id 5 on the empty database. -/
theorem claim_C6_witness :
    (sPend.transfers.filter (fun u => u.id = 1) = [tPend60] ∧
      tPend60.status = "pending" ∧ (∀ u ∈ emptyState.transfers, u.id ≠ 5)) ∧
    get_balance (update_transfer_status sPend 1 "completed" 100) =
      get_balance sPend - tPend60.amount ∧
    update_transfer_status emptyState 5 "completed" 100 = emptyState := by
  have h1 : sPend.transfers.filter (fun u => u.id = 1) = [tPend60] := rfl
  have h2 : tPend60.status = "pending" := rfl
  have h3 : ∀ u ∈ emptyState.transfers, u.id ≠ 5 := by simp [emptyState]
  exact ⟨⟨h1, h2, h3⟩, (claim_C6 sPend 1 tPend60 100 200).1 h1 h2,
    (claim_C6 emptyState 5 tPend60 100 200).2.1 h3⟩

/-- C8: the balance is the opening constant minus the completed-transfer
total plus the deposit total, and it is invariant under any permutation of
the insertion order of the two tables. -/
theorem claim_C8 (s1 s2 : State) (h1 : s1.transfers.Perm s2.transfers)
    (h2 : s1.deposits.Perm s2.deposits) :
    get_balance s1 = starting_balance - completedAmountSum s1.transfers +
        (s1.deposits.map Deposit.amount).sum ∧
    get_balance s1 = get_balance s2 := by
  refine ⟨rfl, ?_⟩
  simp only [get_balance, completedTransfers]
  rw [((h1.filter _).map Transfer.amount).sum_eq, (h2.map Deposit.amount).sum_eq]

/-- Witness for C8: the same four rows in two insertion orders. -/
theorem claim_C8_witness :
    (sPermA.transfers.Perm sPermB.transfers ∧ sPermA.deposits.Perm sPermB.deposits) ∧
    get_balance sPermA = get_balance sPermB := by
  have h1 : sPermA.transfers.Perm sPermB.transfers := List.Perm.swap tOld100 tNew40 []
  have h2 : sPermA.deposits.Perm sPermB.deposits := List.Perm.swap dep50 dep100 []
  exact ⟨⟨h1, h2⟩, (claim_C8 sPermA sPermB h1 h2).2⟩

theorem get_balance_settle_append_fresh (s : State) (row : Transfer) (now : Int)
    (hids : ∀ t ∈ s.transfers, t.id ≠ row.id) (hpend : row.status ≠ "completed") :
    get_balance (update_transfer_status
        { s with transfers := s.transfers ++ [row] } row.id "completed" now) =
      get_balance s - row.amount := by
  simp [update_transfer_status, get_balance_eq, List.map_append,
    map_ite_update_id s.transfers row.id hids, completedAmountSum_append,
    completedAmountSum_cons, completedAmountSum_nil, hpend]
  ring

/-- C9: `update_balance` is a pure no-op on the stored state, and in the
send-money route the balance drops by the transfer amount only because the
freshly completed transfer enters the derived sum. -/
theorem claim_C9 (amount : ℚ) (account te tn dt msg r : String) (s : State)
    (now : Int) (hids : ∀ t ∈ s.transfers, t.id ≠ next_transfer_id s) :
    update_balance amount account s = s ∧
    (∀ s3 tid, api_create_transfer s te tn amount dt msg r now = .ok (s3, tid) →
      get_balance s3 = get_balance s - amount) := by
  refine ⟨rfl, ?_⟩
  intro s3 tid h
  by_cases hv : refViolation s (some r)
  · simp [api_create_transfer, create_transfer, hv] at h
  · simp only [api_create_transfer, create_transfer, hv, Bool.false_eq_true,
      if_false] at h
    rw [Except.ok.injEq, Prod.mk.injEq] at h
    obtain ⟨hs3, -⟩ := h
    subst hs3
    have hmain := get_balance_settle_append_fresh s
      { id := next_transfer_id s, from_account := "Chequing *** 3982",
        to_email := te, to_name := tn, amount := amount, date := dt,
        message := some msg, reference_number := some r, status := "pending",
        created_at := now, completed_at := none } now
      (fun t ht => by simpa using hids t ht) (by simp)
    simpa [update_balance] using hmain

/-- Witness for C9: the route run on `sPend`, whose single row has id 1 while
the next id is 2. -/
theorem claim_C9_witness :
    (∀ t ∈ sPend.transfers, t.id ≠ next_transfer_id sPend) ∧
    update_balance 25 "*** 3982" sPend = sPend ∧
    (∀ s3 tid, api_create_transfer sPend "e@x.com" "Eve" 25 "2025-01-02" "hi"
        "REFX00000001" 77 = .ok (s3, tid) →
      get_balance s3 = get_balance sPend - 25) := by
  have hids : ∀ t ∈ sPend.transfers, t.id ≠ next_transfer_id sPend := by
    simp [sPend, tPend60, next_transfer_id]
  have hC := claim_C9 25 "*** 3982" "e@x.com" "Eve" "2025-01-02" "hi"
    "REFX00000001" sPend 77 hids
  exact ⟨hids, hC.1, hC.2⟩

end Mail
